import Mathlib

/-!
# Verification of the live-interview session logic of `interview_buddy`

This file gives a shallow embedding, in Lean 4, of the live session
orchestration layer of the `interview_buddy` repository: the playback
scheduler, the interruption handler, the transcript accumulator, the
tool-call handler, the microphone/video capture callbacks, the report
generation pipeline and the end-of-call transcript hand-off.

The embedding follows the two live-interview variants in the repository,
`src/components/LiveInterview.tsx` and `src/unnamed/part_003` (the latter is
the richer variant, with tool calls and connection-liveness guards), together
with the report generators in `src/unnamed/part_009` and `src/App.tsx`.
Mutable refs become explicit state; the JavaScript event callbacks become
pure step functions from inputs and current state to new state plus the
list of frames/responses handed to the session `send` primitives.

JavaScript numbers are modelled by `ℚ` (only `max`, `+`, `*` and `/` are
used on them), JavaScript strings by `String` or `List Char`, and the
JavaScript truthiness tests on strings (`if (text)`, `x || dflt`) by
explicit comparisons with the empty string.
-/

namespace InterviewBuddy

/-! ## Transcript accumulation

`src/unnamed/part_003`, lines 385-410 (identical to
`src/components/LiveInterview.tsx`, lines 209-240): on every server message
the handler reads `outputTranscription.text` (spoken by the AI interviewer,
role `'ai'`) and `inputTranscription.text` (spoken by the candidate, role
`'user'`), appends each to the accumulated transcript string and merges it
into the chat history. -/

/-- Chat roles: `'user'` is the candidate, `'ai'` is the AI interviewer. -/
inductive Role where
  | user
  | ai
deriving DecidableEq, Repr

/-- One entry of the chat history (`{role: 'user' | 'ai', text: string}`). -/
structure ChatMsg where
  role : Role
  text : String
deriving DecidableEq, Repr

/-- The `setChatHistory` updater used for both roles: if the last message
exists and has the same role, replace it by the same message with the delta
appended to its text (`[...prev.slice(0, -1), {...lastMsg, text:
lastMsg.text + text}]`); otherwise push a fresh entry. -/
def appendDelta (prev : List ChatMsg) (role : Role) (delta : String) :
    List ChatMsg :=
  match prev.getLast? with
  | some lastMsg =>
      if lastMsg.role = role then
        prev.dropLast ++ [{ role := lastMsg.role, text := lastMsg.text ++ delta }]
      else
        prev ++ [{ role := role, text := delta }]
  | none => prev ++ [{ role := role, text := delta }]

/-- Processing of one (optional) transcription delta: the handler executes
`if (text) { transcriptRef.current += text; setChatHistory(...) }`, so a
missing or empty (JS-falsy) delta leaves both the transcript string and the
chat history untouched. -/
def processTranscriptionDelta (role : Role) (textOpt : Option String)
    (transcript : String) (hist : List ChatMsg) : String × List ChatMsg :=
  match textOpt with
  | some t =>
      if t = "" then (transcript, hist)
      else (transcript ++ t, appendDelta hist role t)
  | none => (transcript, hist)

/-! ## Playback scheduling

`src/unnamed/part_003`, lines 412-433 (identical to
`src/components/LiveInterview.tsx`, lines 243-265): each decoded audio
segment is scheduled at `startTime = max(currentTime, nextStartTime)` and
`nextStartTime` advances to `startTime + audioBuffer.duration`. -/

/-- One scheduling step: given the audio output clock (`currentTime`), the
current `nextStartTime` and the decoded segment duration, return the
scheduled start time and the advanced `nextStartTime`. -/
def scheduleSegment (currentTime nextStartTime duration : ℚ) : ℚ × ℚ :=
  let startTime := max currentTime nextStartTime
  (startTime, startTime + duration)

/-- Iterated scheduling of a sequence of decoded segments, each given as a
pair (output clock time at arrival, duration).  Returns the (start, finish)
interval scheduled for each segment, `finish` being the `nextStartTime`
value advanced past that segment. -/
def scheduleRun (nextStartTime : ℚ) : List (ℚ × ℚ) → List (ℚ × ℚ)
  | [] => []
  | (clock, dur) :: rest =>
      let p := scheduleSegment clock nextStartTime dur
      p :: scheduleRun p.2 rest

/-- Decidable arrival condition: every segment of the list arrives (its
output-clock reading) no later than the `nextStartTime` current when it is
processed, i.e. before its predecessor finishes playing. -/
def promptFromB (nextStartTime : ℚ) : List (ℚ × ℚ) → Bool
  | [] => true
  | (clock, dur) :: rest =>
      decide (clock ≤ nextStartTime) && promptFromB (nextStartTime + dur) rest

/-- The playback-side state of the session: the `nextStartTimeRef` ref and
the `sourcesRef` set of still-tracked scheduled sources, each recorded as
its (scheduled start, duration) pair (the spec's PlaybackQueueEntry). -/
structure PlaybackState where
  nextStartTime : ℚ
  sources : List (ℚ × ℚ)
deriving DecidableEq, Repr

/-- The audio-output branch of the message handler: schedule the decoded
segment via `scheduleSegment` and track the new source in `sourcesRef`. -/
def schedulePlayback (clock dur : ℚ) (st : PlaybackState) : PlaybackState :=
  let p := scheduleSegment clock st.nextStartTime dur
  { nextStartTime := p.2, sources := st.sources ++ [(p.1, dur)] }

/-- The interruption branch (`src/unnamed/part_003`, lines 435-444,
identical to `src/components/LiveInterview.tsx`, lines 267-279): every
tracked source is stopped, the set is cleared, `nextStartTime` is set to 0
and then, if the output audio context exists, overwritten with its
`currentTime`.  The first component is the new playback state, the second
the list of sources on which `stop()` was called. -/
def handleInterruption (audioClock : Option ℚ) (st : PlaybackState) :
    PlaybackState × List (ℚ × ℚ) :=
  let stopped := st.sources
  let ns0 : ℚ := 0
  let ns :=
    match audioClock with
    | some t => t
    | none => ns0
  ({ nextStartTime := ns, sources := [] }, stopped)

/-! ## Tool-call handling

`src/unnamed/part_003`, lines 348-382: on `message.toolCall`, only the first
entry of `functionCalls` is examined; if its name is `assignCodingTask`
(the tool declared at lines 21-38), `currentTask` is set from the call's
arguments — with JS-truthy defaulting `args.title || "Coding Task"` and
`args.description || "Solve the problem."` — and, when the session is
connected, a single `sendToolResponse` carrying the original call id is
issued. -/

/-- One inbound function call: its id, name and the two argument fields the
handler reads from `call.args` (absent fields are `none`). -/
structure FunctionCall where
  id : String
  name : String
  title : Option String
  description : Option String
deriving DecidableEq, Repr

/-- The assigned coding task (`currentTask` state). -/
structure Task where
  title : String
  description : String
deriving DecidableEq, Repr

/-- One outbound tool response (`functionResponses` entry). -/
structure ToolResponse where
  id : String
  name : String
  result : String
deriving DecidableEq, Repr

/-- JavaScript `a || dflt` on an optional string field: a missing or empty
(falsy) value yields the default. -/
def jsOr (s : Option String) (dflt : String) : String :=
  match s with
  | some t => if t = "" then dflt else t
  | none => dflt

/-- The tool-call branch of the message handler.  Returns the new
`currentTask` and the list of tool responses sent (the UI tab switching
`setActiveTab('code')` / `setRightPanelTab('task')` performed in the same
branch is display-only and not modelled).  The `connected` flag is the
`isConnectedRef.current && sessionPromiseRef.current` guard around
`sendToolResponse`. -/
def processToolCall (connected : Bool) (calls : List FunctionCall)
    (currentTask : Option Task) : Option Task × List ToolResponse :=
  match calls with
  | [] => (currentTask, [])
  | call :: _ =>
      if call.name = "assignCodingTask" then
        ( some { title := jsOr call.title "Coding Task",
                 description := jsOr call.description "Solve the problem." },
          if connected then
            [{ id := call.id, name := call.name,
               result := "Task assigned and displayed to candidate." }]
          else [] )
      else (currentTask, [])

/-! ## Microphone and video capture callbacks -/

/-- Modelled from the spec: `float32ToInt16` lives in
`src/utils/audioUtils.ts`, which both live-interview variants import but
which is not present under `src/`.  The spec (AudioCodec, §4.1) fixes a
deterministic conversion of 32-bit float samples in [-1, 1] to 16-bit
signed integers; we model it as scaling by 2^15 with clamping to the Int16
range.  Every claim below uses it only as an opaque per-sample transform:
whether a frame is emitted never depends on the converted values. -/
def float32ToInt16 (samples : List ℚ) : List Int :=
  samples.map fun s => max (-32768) (min 32767 ⌊s * 32768⌋)

/-- The observable outcome of one `onaudioprocess` callback invocation:
the value handed to `setVolume` for the local volume meter (if any), and
the PCM frame handed to `session.sendRealtimeInput` (if any).  The code
displays `Math.sqrt` of the mean of squares; since square roots of
rationals are irrational we record the radicand `sum / length`, which is
zero/updated exactly when the displayed volume is. -/
structure AudioTick where
  volumeSet : Option ℚ
  sent : Option (List Int)
deriving DecidableEq, Repr

/-- The `onaudioprocess` callback of `src/unnamed/part_003`, lines 500-523:
`if (!isMicOnRef.current || !isConnectedRef.current) return;` — then the
volume is computed and set (under `isMounted`), and the converted frame is
sent through the resolved session promise, whose continuation re-checks
`isConnectedRef.current` before `sendRealtimeInput`. -/
def onaudioprocess (micOn connected mounted : Bool) (inputData : List ℚ) :
    AudioTick :=
  if !micOn || !connected then { volumeSet := none, sent := none }
  else
    let sumSq := (inputData.map fun x => x * x).sum
    { volumeSet := if mounted then some (sumSq / (inputData.length : ℚ)) else none,
      sent := if connected then some (float32ToInt16 inputData) else none }

/-- The `onaudioprocess` callback of `src/components/LiveInterview.tsx`,
lines 321-351: `if (!isMicOnRef.current) return;` is the only guard — the
volume update is guarded by the `isMounted` liveness flag, but the frame
send only by `sessionPromiseRef.current` being set (`hasSession`); the
promise continuation performs `sendRealtimeInput` without any liveness
re-check. -/
def onaudioprocessV1 (micOn mounted hasSession : Bool) (inputData : List ℚ) :
    AudioTick :=
  if !micOn then { volumeSet := none, sent := none }
  else
    let sumSq := (inputData.map fun x => x * x).sum
    { volumeSet := if mounted then some (sumSq / (inputData.length : ℚ)) else none,
      sent := if hasSession then some (float32ToInt16 inputData) else none }

/-- The `videoInterval` tick of `src/unnamed/part_003`, lines 533-577:
early return unless the video/canvas refs are ready and
`isConnectedRef.current`; the canvas drawing is display/encoding only and
the encoded JPEG is abstracted as the `frame` string; the send continuation
re-checks `isConnectedRef.current`.  Returns the list of image frames
handed to `sendRealtimeInput` (empty = dropped, nothing is buffered). -/
def videoTick (refsReady connected : Bool) (frame : String) : List String :=
  if !refsReady || !connected then []
  else if connected then [frame] else []

/-! ## The full message handler and session liveness -/

/-- The liveness environment read by the callbacks of
`src/unnamed/part_003`: the `isMounted` closure flag, the
`isConnectedRef.current` flag, and the output audio context's `currentTime`
(`none` when the context is absent). -/
structure Env where
  mounted : Bool
  connected : Bool
  audioClock : Option ℚ
deriving Repr

/-- The cleanup function of `src/unnamed/part_003`, lines 600-620 (entering
the terminal ended state): it sets `isMounted = false` and
`isConnectedRef.current = false` (directly and again via
`cleanupSession`), then tears down the processor, contexts, tracks and
session. -/
def cleanup (env : Env) : Env :=
  { env with mounted := false, connected := false }

/-- The mutable session state touched by the `onmessage` handler of
`src/unnamed/part_003`: the accumulated transcript string
(`transcriptRef`), the chat history, the assigned task and the playback
scheduling state. -/
structure SessionState where
  transcript : String
  chatHistory : List ChatMsg
  currentTask : Option Task
  playback : PlaybackState
deriving DecidableEq, Repr

/-- One inbound `LiveServerMessage`, reduced to the five fields the handler
reads: the tool calls, the two transcription deltas, the decoded duration
of the inline audio chunk (if any), and the interruption flag. -/
structure ServerMessage where
  toolCalls : Option (List FunctionCall)
  outputText : Option String
  inputText : Option String
  audioDur : Option ℚ
  interrupted : Bool
deriving Repr

/-- The `onmessage` handler of `src/unnamed/part_003`, lines 344-445, as a
step function: it returns the new session state and the tool responses
sent.  Faithful to the source order: the `isMounted` guard, the tool-call
branch, the output then input transcription deltas, the audio scheduling
branch (which requires the output audio context), and the interruption
branch (which appends `\n[Interruption]\n` to the transcript, stops and
clears the tracked sources and resets `nextStartTime`). -/
def handleMessage (env : Env) (msg : ServerMessage) (st : SessionState) :
    SessionState × List ToolResponse :=
  if !env.mounted then (st, [])
  else
    let taskAndResponses :=
      match msg.toolCalls with
      | some calls => processToolCall env.connected calls st.currentTask
      | none => (st.currentTask, [])
    let afterOut :=
      processTranscriptionDelta .ai msg.outputText st.transcript st.chatHistory
    let afterIn :=
      processTranscriptionDelta .user msg.inputText afterOut.1 afterOut.2
    let playback1 :=
      match msg.audioDur, env.audioClock with
      | some dur, some clock => schedulePlayback clock dur st.playback
      | _, _ => st.playback
    let transcript2 :=
      if msg.interrupted then afterIn.1 ++ "\n[Interruption]\n" else afterIn.1
    let playback2 :=
      if msg.interrupted then (handleInterruption env.audioClock playback1).1
      else playback1
    ({ transcript := transcript2, chatHistory := afterIn.2,
       currentTask := taskAndResponses.1, playback := playback2 },
     taskAndResponses.2)

/-! ## Report generation

`src/unnamed/part_009`, `generateReport`, lines 163-189: the response text
is rejected when missing/empty, then cleaned — two regex replaces strip
Markdown code-fence markers, then the substring from the first `{` to the
last `}` is taken — and `JSON.parse`d; a parse failure throws, and every
throw is caught and lands in `setGenerationError`, which renders the
recoverable error screen with its "Return to Setup" button.
`src/App.tsx`, `generateReport`, lines 140-150: the raw response text (with
an empty/missing text defaulted to the two-character object literal) is
parsed directly; the catch shows an alert and returns to the setup state.

Strings are handled as `List Char` here; the brace and backquote characters
are named constants. -/

/-- The character `{` (code point 123). -/
def openBrace : Char := Char.ofNat 123

/-- The character `}` (code point 125). -/
def closeBrace : Char := Char.ofNat 125

/-- The backquote character (code point 96). -/
def backquote : Char := Char.ofNat 96

/-- The characters of the opening Markdown fence marker matched by the
first regex replace. -/
def fenceJson : List Char := [backquote, backquote, backquote, 'j', 's', 'o', 'n']

/-- The characters of the bare fence marker matched by the second regex
replace. -/
def fence : List Char := [backquote, backquote, backquote]

/-- Drop leading whitespace (the regex class matched by a trailing
whitespace run). -/
def dropLeadingWs (l : List Char) : List Char :=
  l.dropWhile fun c => c.isWhitespace

theorem dropLeadingWs_length_le (l : List Char) :
    (dropLeadingWs l).length ≤ l.length := by
  induction l with
  | nil => simp [dropLeadingWs]
  | cons c rest ih =>
      by_cases h : c.isWhitespace
      · simp only [dropLeadingWs, List.dropWhile] at ih ⊢
        rw [h]
        simpa using Nat.le_succ_of_le ih
      · simp [dropLeadingWs, List.dropWhile, h]

/-- The first regex replace of the cleaning step: every occurrence of the
opening fence marker together with the whitespace run following it is
removed. -/
def stripFenceOpens : List Char → List Char
  | [] => []
  | c :: rest =>
      if fenceJson.isPrefixOf (c :: rest) then
        stripFenceOpens (dropLeadingWs ((c :: rest).drop fenceJson.length))
      else c :: stripFenceOpens rest
termination_by l => l.length
decreasing_by
  · have h1 := dropLeadingWs_length_le ((c :: rest).drop fenceJson.length)
    have h2 : ((c :: rest).drop fenceJson.length).length
        = (c :: rest).length - fenceJson.length := by simp
    have h3 : fenceJson.length = 7 := rfl
    simp only [List.length_cons] at h1 h2 ⊢
    omega
  · simp only [List.length_cons]
    omega

/-- Remove trailing whitespace. -/
def trimTrailingWs (l : List Char) : List Char :=
  (l.reverse.dropWhile fun c => c.isWhitespace).reverse

/-- The second regex replace of the cleaning step: a closing fence marker
followed only by whitespace at the very end of the text is removed (the
regex is anchored at the end, so at most one match exists); when the text
does not end that way it is returned unchanged. -/
def stripFenceClose (l : List Char) : List Char :=
  let core := trimTrailingWs l
  if fence.isSuffixOf core then core.take (core.length - fence.length) else l

/-- JavaScript `lastIndexOf` on characters. -/
def lastIndexOf (target : Char) (l : List Char) : Option Nat :=
  match l.reverse.findIdx? (fun c => c == target) with
  | some k => some (l.length - 1 - k)
  | none => none

/-- JavaScript `substring(a, b)`: the two indices are swapped when given in
the wrong order, and clamped to the length. -/
def jsSubstringList (l : List Char) (a b : Nat) : List Char :=
  (l.take (max a b)).drop (min a b)

/-- Lines 171-175 of `src/unnamed/part_009`: take the substring from the
first `{` (via `indexOf`) to the last `}` (via `lastIndexOf`), inclusive;
when either brace is absent the text is left unchanged. -/
def extractOuterObject (l : List Char) : List Char :=
  match l.findIdx? (fun c => c == openBrace), lastIndexOf closeBrace l with
  | some firstBrace, some lastBrace => jsSubstringList l firstBrace (lastBrace + 1)
  | _, _ => l

/-- The full cleaning step of `src/unnamed/part_009` (line 170-175): fence
markers stripped, then the outermost braced region extracted. -/
def cleanResponseText (s : String) : String :=
  String.mk (extractOuterObject (stripFenceClose (stripFenceOpens s.data)))

/-- Where one run of `generateReport` ends up: `report j` means
`setReport`/`AppState.REPORT` was reached with the JSON text `j`;
`errorState m` means the run ended in the recoverable error UI (in
`src/unnamed/part_009` the `setGenerationError` screen with its
"Return to Setup" button; in `src/App.tsx` the alert followed by
`setAppState(AppState.SETUP)`). -/
inductive ReportOutcome where
  | report (json : String)
  | errorState (msg : String)
deriving DecidableEq, Repr

/-- The parse-failure message thrown at line 183 of `src/unnamed/part_009`. -/
def parseFailMsg : String :=
  "Failed to parse the report data. The AI response was not valid JSON."

/-- The empty-response message thrown at line 166 of `src/unnamed/part_009`. -/
def emptyResponseMsg : String :=
  "The AI model returned an empty response. This might be due to safety filters or connection issues."

/-- `generateReport` of `src/unnamed/part_009`, lines 163-189, from the
point where the remote response text is in hand.  `JSON.parse` is an
opaque browser primitive, abstracted as the oracle `parseOk`; the `try`
block shows the report exactly when the cleaned text parses, and every
thrown error is caught into the recoverable error state. -/
def generateReport (parseOk : String → Bool) (responseText : Option String) :
    ReportOutcome :=
  match responseText with
  | none => .errorState emptyResponseMsg
  | some t =>
      if t = "" then .errorState emptyResponseMsg
      else
        let cleaned := cleanResponseText t
        if parseOk cleaned then .report cleaned
        else .errorState parseFailMsg

/-- The two-character object literal `src/App.tsx` substitutes for a
missing response text. -/
def emptyObjectText : String := String.mk [openBrace, closeBrace]

/-- `generateReport` of `src/App.tsx`, lines 140-150, from the point where
the remote response text is in hand: `response.text || "..."` (the default
being `emptyObjectText`) is handed to `JSON.parse` with no cleaning; on
success the report is shown, and the catch alerts and returns to setup. -/
def generateReportApp (parseOk : String → Bool) (responseText : Option String) :
    ReportOutcome :=
  let jsonText :=
    match responseText with
    | some t => if t = "" then emptyObjectText else t
    | none => emptyObjectText
  if parseOk jsonText then .report jsonText
  else .errorState "Failed to generate report. Please try again."

/-! ## End of call -/

/-- `handleEndCall` (`src/unnamed/part_003`, lines 623-625, identical to
`src/components/LiveInterview.tsx`, lines 448-451): the argument handed to
`onEndInterview` is `transcriptRef.current || "No transcript available."`
— JS `||` substitutes the sentinel exactly when the accumulated transcript
is the (falsy) empty string. -/
def handleEndCall (transcript : String) : String :=
  if transcript = "" then "No transcript available." else transcript

/-! ## Helper lemmas for the playback scheduler -/

theorem scheduleRun_head_start (ns : ℚ) (segs : List (ℚ × ℚ)) :
    ∀ p, (scheduleRun ns segs).head? = some p → ns ≤ p.1 := by
  cases segs with
  | nil => intro p hp; simp [scheduleRun] at hp
  | cons a rest =>
    obtain ⟨c, d⟩ := a
    intro p hp
    simp only [scheduleRun, List.head?_cons, Option.some.injEq] at hp
    rw [← hp]
    exact le_max_right c ns

theorem scheduleRun_head_start_eq (segs : List (ℚ × ℚ)) (ns : ℚ)
    (h : promptFromB ns segs = true) :
    ∀ p, (scheduleRun ns segs).head? = some p → p.1 = ns := by
  cases segs with
  | nil => intro p hp; simp [scheduleRun] at hp
  | cons a rest =>
    obtain ⟨c, d⟩ := a
    intro p hp
    simp only [promptFromB, Bool.and_eq_true, decide_eq_true_eq] at h
    simp only [scheduleRun, List.head?_cons, Option.some.injEq] at hp
    rw [← hp]
    simp [scheduleSegment, max_eq_right h.1]

theorem scheduleRun_mono (segs : List (ℚ × ℚ)) : ∀ ns : ℚ,
    (∀ p ∈ segs, 0 ≤ p.2) →
    List.Chain' (fun a b => a.1 ≤ b.1) (scheduleRun ns segs) := by
  induction segs with
  | nil => intro ns _; simp [scheduleRun]
  | cons a rest ih =>
    intro ns hdur
    obtain ⟨c, d⟩ := a
    have hd : (0 : ℚ) ≤ d := by simpa using hdur (c, d) (List.mem_cons_self _ _)
    rw [show scheduleRun ns ((c, d) :: rest)
        = scheduleSegment c ns d :: scheduleRun (scheduleSegment c ns d).2 rest from rfl]
    rw [List.chain'_cons']
    constructor
    · intro y hy
      rw [Option.mem_def] at hy
      have h1 := scheduleRun_head_start (scheduleSegment c ns d).2 rest y hy
      have h2 : (scheduleSegment c ns d).1 ≤ (scheduleSegment c ns d).2 := by
        simp only [scheduleSegment]
        linarith
      exact h2.trans h1
    · exact ih _ fun p hp => hdur p (List.mem_cons_of_mem _ hp)

theorem scheduleRun_contiguous (segs : List (ℚ × ℚ)) : ∀ ns : ℚ,
    promptFromB ns segs = true →
    List.Chain' (fun a b => b.1 = a.2) (scheduleRun ns segs) := by
  induction segs with
  | nil => intro ns _; simp [scheduleRun]
  | cons a rest ih =>
    intro ns h
    obtain ⟨c, d⟩ := a
    simp only [promptFromB, Bool.and_eq_true, decide_eq_true_eq] at h
    have he : (scheduleSegment c ns d).2 = ns + d := by
      simp [scheduleSegment, max_eq_right h.1]
    rw [show scheduleRun ns ((c, d) :: rest)
        = scheduleSegment c ns d :: scheduleRun (scheduleSegment c ns d).2 rest from rfl]
    rw [List.chain'_cons']
    constructor
    · intro y hy
      rw [Option.mem_def] at hy
      exact scheduleRun_head_start_eq rest _ (by rw [he]; exact h.2) y hy
    · exact ih _ (by rw [he]; exact h.2)

/-- C1: for every sequence of decoded audio segments received without an
interruption, the scheduler computes `startAt = max(currentOutputClockTime,
nextStartTime)` and advances `nextStartTime = startAt + duration`
(definition `scheduleSegment`); consequently, whenever each later segment
arrives before its predecessor finishes playing (`promptFromB` holding from
the first advanced `nextStartTime` on), the scheduled start times are
contiguous — each start equals its predecessor's finish, so zero gap and
zero overlap — and, durations being nonnegative, monotonically
non-decreasing. -/
theorem playback_scheduling_gapless (ns c0 d0 : ℚ) (rest : List (ℚ × ℚ))
    (hprompt : promptFromB (scheduleSegment c0 ns d0).2 rest = true)
    (hdur : ∀ p ∈ (c0, d0) :: rest, 0 ≤ p.2) :
    List.Chain' (fun a b => b.1 = a.2) (scheduleRun ns ((c0, d0) :: rest)) ∧
    List.Chain' (fun a b => a.1 ≤ b.1) (scheduleRun ns ((c0, d0) :: rest)) := by
  constructor
  · rw [show scheduleRun ns ((c0, d0) :: rest)
        = scheduleSegment c0 ns d0 :: scheduleRun (scheduleSegment c0 ns d0).2 rest from rfl]
    rw [List.chain'_cons']
    refine ⟨?_, scheduleRun_contiguous rest _ hprompt⟩
    intro y hy
    rw [Option.mem_def] at hy
    exact scheduleRun_head_start_eq rest _ hprompt y hy
  · exact scheduleRun_mono _ ns hdur

/-- Witness for `playback_scheduling_gapless`: three segments of durations
1, 2, 3, the second and third arriving (clock readings 0 and 1) before
their predecessors finish. -/
theorem playback_scheduling_gapless_witness :
    (promptFromB (scheduleSegment 0 0 1).2 [((0 : ℚ), (2 : ℚ)), ((1 : ℚ), (3 : ℚ))] = true) ∧
    (∀ p ∈ [((0 : ℚ), (1 : ℚ)), ((0 : ℚ), (2 : ℚ)), ((1 : ℚ), (3 : ℚ))], 0 ≤ p.2) ∧
    (List.Chain' (fun a b => b.1 = a.2)
        (scheduleRun 0 [((0 : ℚ), (1 : ℚ)), ((0 : ℚ), (2 : ℚ)), ((1 : ℚ), (3 : ℚ))]) ∧
     List.Chain' (fun a b => a.1 ≤ b.1)
        (scheduleRun 0 [((0 : ℚ), (1 : ℚ)), ((0 : ℚ), (2 : ℚ)), ((1 : ℚ), (3 : ℚ))])) :=
  ⟨by norm_num [promptFromB, scheduleSegment], by norm_num [List.forall_mem_cons],
   playback_scheduling_gapless 0 0 1 [(0, 2), (1, 3)]
     (by norm_num [promptFromB, scheduleSegment]) (by norm_num [List.forall_mem_cons])⟩

/-- C2: after an interruption-signal is processed (with the output audio
context present, clock reading `t`), every previously scheduled segment is
stopped and discarded — the returned stop list is exactly the prior pending
set and the new pending set is empty — `nextStartTime` is reset to the
current output clock time `t` (not to 0), and any segment scheduled next
starts at `max cur t ≥ t`, never before the interruption instant.  The
last conjunct states the same through the full message handler: an
interruption-only message leaves the playback state at exactly
`⟨t, ∅⟩`. -/
theorem interruption_reset (st : PlaybackState) (s : SessionState) (t cur dur : ℚ) :
    (handleInterruption (some t) st).1.sources = [] ∧
    (handleInterruption (some t) st).2 = st.sources ∧
    (handleInterruption (some t) st).1.nextStartTime = t ∧
    t ≤ (scheduleSegment cur (handleInterruption (some t) st).1.nextStartTime dur).1 ∧
    ((handleMessage ⟨true, true, some t⟩ ⟨none, none, none, none, true⟩ s).1).playback
      = { nextStartTime := t, sources := [] } := by
  refine ⟨rfl, rfl, rfl, ?_, rfl⟩
  simp only [handleInterruption, scheduleSegment]
  exact le_max_right cur t

/-- C3: a non-empty transcription delta is merged into the last chat entry
when its role matches that entry's role (the prefix `hist.dropLast` is kept
unchanged, so the sequence is never reordered), and opens a new entry
appended at the end otherwise; in particular the two deltas `"Hi"` and
`" there"`, both for the interviewer role (`'ai'`), yield exactly the one
entry `{role: ai, text: "Hi there"}`. -/
theorem transcript_merge (tr : String) (hist : List ChatMsg) (lastMsg : ChatMsg)
    (r : Role) (d : String) (hd : d ≠ "") (hlast : hist.getLast? = some lastMsg) :
    (lastMsg.role = r →
       (processTranscriptionDelta r (some d) tr hist).2 =
         hist.dropLast ++ [{ role := lastMsg.role, text := lastMsg.text ++ d }]) ∧
    (lastMsg.role ≠ r →
       (processTranscriptionDelta r (some d) tr hist).2 =
         hist ++ [{ role := r, text := d }]) ∧
    ((processTranscriptionDelta .ai (some " there")
        (processTranscriptionDelta .ai (some "Hi") "" []).1
        (processTranscriptionDelta .ai (some "Hi") "" []).2).2 =
      [{ role := .ai, text := "Hi there" }]) := by
  refine ⟨?_, ?_, by decide⟩
  · intro hr
    simp only [processTranscriptionDelta, if_neg hd, appendDelta, hlast, if_pos hr]
  · intro hr
    simp only [processTranscriptionDelta, if_neg hd, appendDelta, hlast, if_neg hr]

/-- Witness for `transcript_merge`: the delta `" there"` merged into a
history ending in an `'ai'` entry `"Hi"`. -/
theorem transcript_merge_witness :
    (" there" : String) ≠ "" ∧
    ([{ role := Role.ai, text := "Hi" }] : List ChatMsg).getLast?
      = some { role := Role.ai, text := "Hi" } ∧
    (processTranscriptionDelta .ai (some " there") ""
        [{ role := .ai, text := "Hi" }]).2 =
      [{ role := Role.ai, text := "Hi there" }] := by
  refine ⟨by decide, rfl, ?_⟩
  have h := transcript_merge "" [{ role := .ai, text := "Hi" }]
      { role := .ai, text := "Hi" } .ai " there" (by decide) rfl
  exact (h.1 rfl).trans (by decide)

/-- C9: an empty (or absent) transcription delta is a no-op: the handler's
JS-truthiness guard `if (text)` skips the branch, so both the transcript
string and the chat history — entry count and every entry's text — are
returned unchanged and no spurious empty entry is created. -/
theorem empty_delta_noop (r : Role) (tr : String) (hist : List ChatMsg) :
    processTranscriptionDelta r (some "") tr hist = (tr, hist) ∧
    processTranscriptionDelta r none tr hist = (tr, hist) := by
  exact ⟨by simp [processTranscriptionDelta], rfl⟩

/-- C10: on ending the session, the callback receives the sentinel
`"No transcript available."` exactly when the accumulated transcript is the
empty string, and the accumulated transcript unchanged otherwise. -/
theorem end_call_sentinel (t : String) :
    (t = "" → handleEndCall t = "No transcript available.") ∧
    (t ≠ "" → handleEndCall t = t) := by
  constructor
  · intro h
    simp [handleEndCall, h]
  · intro h
    simp [handleEndCall, h]

/-- Witness for `end_call_sentinel` at the empty and a non-empty
transcript. -/
theorem end_call_sentinel_witness :
    handleEndCall "" = "No transcript available." ∧ handleEndCall "Hello" = "Hello" :=
  ⟨(end_call_sentinel "").1 rfl, (end_call_sentinel "Hello").2 (by decide)⟩

/-- C4 is refuted as stated: both `onaudioprocess` variants execute
`if (!isMicOnRef.current ...) return;` *before* the volume computation, so
at a concrete muted tick (mic off, session connected and mounted, one
sample of value 1/2) no outbound frame is emitted — that part holds — but
`setVolume` is also never called (`volumeSet = none`), contradicting the
claim that the volume meter keeps updating during the mute. -/
theorem mute_volume_counterexample :
    onaudioprocess false true true [(1 : ℚ) / 2] = { volumeSet := none, sent := none } ∧
    onaudioprocessV1 false true true [(1 : ℚ) / 2] = { volumeSet := none, sent := none } :=
  ⟨rfl, rfl⟩

/-- C4 (amended): while the microphone is muted the audio producer emits
zero outbound frames (dropped locally, not sent) and unmuting resumes
emission on the very next capture tick; however, muting also suspends the
local volume analysis — the callback returns before computing the volume,
so the volume meter does not update during the mute. -/
theorem mute_behavior (connected mounted : Bool) (muted unmuted : List ℚ) :
    (onaudioprocess false connected mounted muted).sent = none ∧
    (onaudioprocess false connected mounted muted).volumeSet = none ∧
    (onaudioprocess true true true unmuted).sent = some (float32ToInt16 unmuted) ∧
    (onaudioprocess true true true unmuted).volumeSet =
      some ((unmuted.map fun x => x * x).sum / (unmuted.length : ℚ)) := by
  refine ⟨?_, ?_, ?_, ?_⟩ <;> simp [onaudioprocess]

/-- C5 is refuted as stated: a tool call that supplies the (empty-string)
title `""` and a description has "supplied a title and a description", yet
because of the JS-truthy defaulting `args.title || "Coding Task"` the
assigned task's title is `"Coding Task"`, not the supplied title. -/
theorem assign_task_counterexample :
    (processToolCall true
        [{ id := "call-1", name := "assignCodingTask",
           title := some "", description := some "Reverse a linked list." }] none).1 ≠
      some { title := "", description := "Reverse a linked list." } ∧
    (processToolCall true
        [{ id := "call-1", name := "assignCodingTask",
           title := some "", description := some "Reverse a linked list." }] none).1 =
      some { title := "Coding Task", description := "Reverse a linked list." } := by
  constructor <;> decide

theorem processToolCall_preserves (connected : Bool) (calls : List FunctionCall)
    (task : Option Task) (h : task.isSome) :
    ((processToolCall connected calls task).1).isSome := by
  match calls with
  | [] => simpa [processToolCall] using h
  | call :: rest =>
    by_cases hn : call.name = "assignCodingTask"
    · simp [processToolCall, hn]
    · simpa [processToolCall, hn] using h

theorem handleMessage_task_preserves (env : Env) (msg : ServerMessage)
    (st : SessionState) (h : st.currentTask.isSome) :
    (((handleMessage env msg st).1).currentTask).isSome := by
  cases hm : env.mounted
  · simpa [handleMessage, hm] using h
  · cases htc : msg.toolCalls with
    | none => simpa [handleMessage, hm, htc] using h
    | some calls =>
        simpa [handleMessage, hm, htc] using
          processToolCall_preserves env.connected calls st.currentTask h

/-- C5 (amended): for every received tool-call event whose first call is
named `assignCodingTask` and supplies a *non-empty* title and a
*non-empty* description, the assigned task is set to exactly those fields
and (the session being connected when the event is delivered) exactly one
tool response carrying the original call id is sent; and once set, neither
the tool-call branch nor any full message ever removes the task — it can
only be replaced by a later `assignCodingTask` call. -/
theorem assign_task_spec (call : FunctionCall) (rest : List FunctionCall)
    (task : Option Task) (t d : String)
    (hname : call.name = "assignCodingTask")
    (ht : call.title = some t) (ht' : t ≠ "")
    (hd : call.description = some d) (hd' : d ≠ "") :
    (processToolCall true (call :: rest) task).1 = some { title := t, description := d } ∧
    (processToolCall true (call :: rest) task).2 =
      [{ id := call.id, name := call.name,
         result := "Task assigned and displayed to candidate." }] ∧
    (∀ (connected : Bool) (calls : List FunctionCall) (task0 : Option Task),
        task0.isSome → ((processToolCall connected calls task0).1).isSome) ∧
    (∀ (env : Env) (msg : ServerMessage) (st : SessionState),
        st.currentTask.isSome → (((handleMessage env msg st).1).currentTask).isSome) := by
  refine ⟨?_, ?_, processToolCall_preserves, handleMessage_task_preserves⟩
  · simp [processToolCall, hname, jsOr, ht, ht', hd, hd']
  · simp [processToolCall, hname]

/-- Witness for `assign_task_spec`: the call `assignCodingTask` with title
`"Reverse a List"` and a non-empty description. -/
theorem assign_task_spec_witness :
    (processToolCall true
        [{ id := "call-7", name := "assignCodingTask",
           title := some "Reverse a List",
           description := some "Reverse a singly linked list." }] none).1 =
      some { title := "Reverse a List", description := "Reverse a singly linked list." } ∧
    (processToolCall true
        [{ id := "call-7", name := "assignCodingTask",
           title := some "Reverse a List",
           description := some "Reverse a singly linked list." }] none).2 =
      [{ id := "call-7", name := "assignCodingTask",
         result := "Task assigned and displayed to candidate." }] :=
  ⟨(assign_task_spec _ [] none _ _ rfl rfl (by decide) rfl (by decide)).1,
   (assign_task_spec _ [] none _ _ rfl rfl (by decide) rfl (by decide)).2.1⟩

/-- C6: offering an outbound frame while the channel is not open completes
as a dropped no-op.  Both send sites of `src/unnamed/part_003` guard on
`isConnectedRef.current` (and wrap the send in `try`/`.catch(() => {})`),
so with the channel not open the audio tick emits no frame and the video
tick emits no frame; the step functions are total (nothing can be thrown)
and stateless here (no queue exists anywhere, so nothing is buffered). -/
theorem send_not_open_noop (micOn mounted refsReady : Bool) (inputData : List ℚ)
    (frame : String) :
    onaudioprocess micOn false mounted inputData = { volumeSet := none, sent := none } ∧
    videoTick refsReady false frame = [] := by
  constructor <;> simp [onaudioprocess, videoTick]

/-- C7 is refuted as stated: in `src/components/LiveInterview.tsx` the
audio-process callback's send continuation
(`sessionPromiseRef.current.then(session => session.sendRealtimeInput(...))`)
performs the send without re-checking any liveness flag, so after the
session has ended (`isMounted = false`, the session promise still resolved)
a tick with the mic on still emits an outbound frame — a "zombie write". -/
theorem zombie_send_counterexample :
    (onaudioprocessV1 true false true [(1 : ℚ) / 2]).sent ≠ none := by
  simp [onaudioprocessV1]

/-- C7 (amended): in the `src/unnamed/part_003` variant the claim holds —
after `cleanup` enters the terminal state (clearing `isMounted` and
`isConnectedRef`), the audio-process callback emits nothing and updates
nothing, the video-frame timer emits nothing, and the inbound-message
handler leaves the state untouched and sends no tool response; in the
`src/components/LiveInterview.tsx` variant, however, the audio and video
send continuations do not re-check the liveness flag. -/
theorem ended_no_sends (env : Env) (micOn refsReady : Bool) (inputData : List ℚ)
    (frame : String) (msg : ServerMessage) (st : SessionState) :
    onaudioprocess micOn (cleanup env).connected (cleanup env).mounted inputData
      = { volumeSet := none, sent := none } ∧
    videoTick refsReady (cleanup env).connected frame = [] ∧
    handleMessage (cleanup env) msg st = (st, []) := by
  refine ⟨?_, ?_, ?_⟩ <;> simp [cleanup, onaudioprocess, videoTick, handleMessage]

/-! ## Helper lemmas for the report-cleaning step -/

theorem findIdx?_all_false {p : Char → Bool} {l : List Char}
    (h : ∀ c ∈ l, p c = false) : l.findIdx? p = none := by
  rw [List.findIdx?_eq_none_iff]
  intro x hx
  simpa using h x hx

/-- Brace extraction tolerates arbitrary brace-free wrapping: for any text
of the shape `pre ++ mid ++ post` where `pre` and `post` contain no braces
and `mid` begins with `{` and ends with `}` (in particular Markdown fences
around a JSON object), the extracted region is exactly `mid`. -/
theorem extractOuterObject_wrapped (pre mid post : List Char)
    (hpre : ∀ c ∈ pre, c ≠ openBrace ∧ c ≠ closeBrace)
    (hpost : ∀ c ∈ post, c ≠ openBrace ∧ c ≠ closeBrace)
    (hhead : mid.head? = some openBrace)
    (hlast : mid.getLast? = some closeBrace) :
    extractOuterObject (pre ++ mid ++ post) = mid := by
  have hpre1 : pre.findIdx? (fun c => c == openBrace) = none :=
    findIdx?_all_false fun c hc => by simpa using (hpre c hc).1
  obtain ⟨tl, htl⟩ : ∃ tl, mid = openBrace :: tl := by
    cases hm : mid with
    | nil => rw [hm] at hhead; simp at hhead
    | cons a b =>
        rw [hm] at hhead
        simp only [List.head?_cons, Option.some.injEq] at hhead
        exact ⟨b, by rw [hhead]⟩
  have h1 : (pre ++ mid ++ post).findIdx? (fun c => c == openBrace)
      = some pre.length := by
    rw [List.append_assoc, List.findIdx?_append, hpre1, htl]
    simp [List.findIdx?_cons]
  obtain ⟨rtl, hrtl⟩ : ∃ rtl, mid.reverse = closeBrace :: rtl := by
    have hh : mid.reverse.head? = some closeBrace := by
      rw [List.head?_reverse]
      exact hlast
    cases hm : mid.reverse with
    | nil => rw [hm] at hh; simp at hh
    | cons a b =>
        rw [hm] at hh
        simp only [List.head?_cons, Option.some.injEq] at hh
        exact ⟨b, by rw [hh]⟩
  have hpost1 : post.reverse.findIdx? (fun c => c == closeBrace) = none :=
    findIdx?_all_false fun c hc => by
      simpa using (hpost c (List.mem_reverse.mp hc)).2
  have hrev : (pre ++ mid ++ post).reverse.findIdx? (fun c => c == closeBrace)
      = some post.length := by
    rw [List.append_assoc, List.reverse_append, List.reverse_append,
        List.append_assoc, List.findIdx?_append, hpost1, hrtl]
    simp [List.findIdx?_cons]
  have hlastIdx : lastIndexOf closeBrace (pre ++ mid ++ post)
      = some ((pre ++ mid ++ post).length - 1 - post.length) := by
    unfold lastIndexOf
    rw [hrev]
  have hmlen : mid.length = tl.length + 1 := by rw [htl]; simp
  simp only [extractOuterObject, h1, hlastIdx]
  have hb : (pre ++ mid ++ post).length - 1 - post.length + 1
      = pre.length + mid.length := by
    simp only [List.length_append]
    omega
  rw [hb]
  unfold jsSubstringList
  rw [Nat.min_eq_left (Nat.le_add_right _ _), Nat.max_eq_right (Nat.le_add_right _ _)]
  rw [List.take_left' (by simp : (pre ++ mid).length = pre.length + mid.length)]
  exact List.drop_left pre mid

/-- C8 is refuted as stated: the `src/App.tsx` variant of `generateReport`
performs no extraction and defaults an empty response text to the bare
object literal before parsing, so — with any parse oracle that accepts
`"{}"`, as `JSON.parse` does — an *empty* evaluation-call response ends in
a silently shown (empty) report instead of the recoverable error state the
claim requires. -/
theorem report_empty_counterexample :
    generateReportApp (fun s => s == emptyObjectText) (some "")
      = .report emptyObjectText := by
  simp [generateReportApp]

/-- C8 (amended): the claim holds for the `src/unnamed/part_009` variant of
`generateReport`: a missing or empty response text lands in the recoverable
error state (with its path back to the setup step), a response whose
cleaned text fails to parse lands in the recoverable error state, a report
is shown only when the cleaned text parses (never silently on a failure),
and the brace-extraction cleaning step recovers a braced object from
arbitrary brace-free wrapping.  The `src/App.tsx` variant instead parses
the raw text with an empty response defaulted to `"{}"`, silently showing
an empty report in that case (its parse failures do still return the user
to setup via an alert). -/
theorem report_generation_robust (parseOk : String → Bool) :
    generateReport parseOk none = .errorState emptyResponseMsg ∧
    generateReport parseOk (some "") = .errorState emptyResponseMsg ∧
    (∀ t : String, t ≠ "" → parseOk (cleanResponseText t) = false →
        generateReport parseOk (some t) = .errorState parseFailMsg) ∧
    (∀ t : String, t ≠ "" → parseOk (cleanResponseText t) = true →
        generateReport parseOk (some t) = .report (cleanResponseText t)) ∧
    (∀ pre mid post : List Char,
        (∀ c ∈ pre, c ≠ openBrace ∧ c ≠ closeBrace) →
        (∀ c ∈ post, c ≠ openBrace ∧ c ≠ closeBrace) →
        mid.head? = some openBrace → mid.getLast? = some closeBrace →
        extractOuterObject (pre ++ mid ++ post) = mid) := by
  refine ⟨rfl, by simp [generateReport], ?_, ?_, extractOuterObject_wrapped⟩
  · intro t ht hp
    simp [generateReport, ht, hp]
  · intro t ht hp
    simp [generateReport, ht, hp]

/-- Witness for `report_generation_robust`: the parse-failure and
parse-success routes at the response text `"x"`, and the extraction of a
braced object wrapped in backquotes. -/
theorem report_generation_robust_witness :
    generateReport (fun _ => false) (some "x") = .errorState parseFailMsg ∧
    generateReport (fun _ => true) (some "x") = .report (cleanResponseText "x") ∧
    extractOuterObject ([backquote] ++ [openBrace, 'a', closeBrace] ++ [backquote])
      = [openBrace, 'a', closeBrace] := by
  refine ⟨?_, ?_, ?_⟩
  · exact (report_generation_robust (fun _ => false)).2.2.1 "x" (by decide) rfl
  · exact (report_generation_robust (fun _ => true)).2.2.2.1 "x" (by decide) rfl
  · exact (report_generation_robust (fun _ => true)).2.2.2.2 [backquote]
      [openBrace, 'a', closeBrace] [backquote]
      (by decide) (by decide) (by decide) (by decide)

end InterviewBuddy
